import Mathlib

/-!
Shallow embedding of `src/packages/hurl/src/http/certificate.rs` (hurl's
certificate-metadata parser).

Strings are modelled as `List Char` (`Str`).  Rust's `HashMap<String, String>`
is modelled as an association list with replace-on-insert semantics
(`insertA`); its `Debug` rendering (`{attributes:?}`) is modelled by `debugA`
over the list in insertion order.  The real `HashMap`'s `Debug` iteration
order is unspecified and varies per map instance (each map gets a fresh
`RandomState`), so where that order matters the parser is additionally
modelled with the dump rendering abstracted as a parameter
(`Certificate.tryFromD`); `tryFrom` is its `debugA` instance.  `chrono::NaiveDateTime::parse_from_str` for
the two concrete format strings used by the source (`"%b %d %H:%M:%S %Y GMT"`
and `"%Y-%m-%d %H:%M:%S GMT"`) is modelled by `parseFmt1` / `parseFmt2`:
abbreviated month names matched case-insensitively, whitespace items matching
a run of whitespace, numeric fields of bounded width, literal characters
matched exactly, the whole input consumed, and calendar validation of the
parsed fields.  Lowercasing (`String::to_lowercase`) is modelled
per-character with `Char.toLower`, which agrees with Rust on ASCII input.
`DateTime<Utc>` values are represented by their calendar fields (`NaiveDT`):
the source attaches the UTC zone to the parsed naive datetime unchanged.
-/

abbrev Str := List Char

def toLowerStr (s : Str) : Str := s.map Char.toLower

/-- Model of `parse_attribute`: split a line at its first `':'` into the
name before it and everything after it; `none` when the line has no colon. -/
def parse_attribute : Str → Option (Str × Str)
  | [] => none
  | c :: rest =>
    if c = ':' then some ([], rest)
    else
      match parse_attribute rest with
      | some (n, v) => some (c :: n, v)
      | none => none

/-- Association-list map with replace-on-insert, modelling
`HashMap::insert` (the value of an existing key is overwritten). -/
def insertA (k v : Str) : List (Str × Str) → List (Str × Str)
  | [] => [(k, v)]
  | (k', v') :: rest => if k' = k then (k, v) :: rest else (k', v') :: insertA k v rest

/-- Model of `HashMap::get` on the association list. -/
def lookupA : List (Str × Str) → Str → Option Str
  | [], _ => none
  | (k', v') :: rest, k => if k' = k then some v' else lookupA rest k

/-- Model of `parse_attributes`: fold over the lines, inserting each parsed
attribute under its lowercased name. -/
def parse_attributes (data : List Str) : List (Str × Str) :=
  data.foldl
    (fun m s =>
      match parse_attribute s with
      | some (n, v) => insertA (toLowerStr n) v m
      | none => m)
    []

/-- One entry of the map's `Debug` rendering: `"key": "value"`. -/
def debugEntry (kv : Str × Str) : Str :=
  "\"".data ++ kv.1 ++ "\": \"".data ++ kv.2 ++ "\"".data

/-- Model of Rust's `{attributes:?}` debug rendering of the map:
`{"k1": "v1", "k2": "v2"}` (entries in the association list's order). -/
def debugA (m : List (Str × Str)) : Str :=
  "\x7b".data ++ List.intercalate ", ".data (m.map debugEntry) ++ "\x7d".data

/-- Calendar datetime fields; a parsed `DateTime<Utc>` is these fields
interpreted at UTC. -/
structure NaiveDT where
  year : Nat
  month : Nat
  day : Nat
  hour : Nat
  minute : Nat
  second : Nat
deriving DecidableEq

def digitsToNat (ds : Str) : Nat :=
  ds.foldl (fun a c => a * 10 + (c.toNat - 48)) 0

/-- Read a decimal number of at least one and at most `maxD` digits. -/
def readNatMax (maxD : Nat) (s : Str) : Option (Nat × Str) :=
  let ds := (s.takeWhile Char.isDigit).take maxD
  if ds = [] then none else some (digitsToNat ds, s.drop ds.length)

def monthNames : List Str :=
  ["jan".data, "feb".data, "mar".data, "apr".data, "may".data, "jun".data,
   "jul".data, "aug".data, "sep".data, "oct".data, "nov".data, "dec".data]

/-- Read a three-letter month abbreviation, case-insensitively (`%b`). -/
def readMonthAbbrev : Str → Option (Nat × Str)
  | c1 :: c2 :: c3 :: rest =>
    match monthNames.findIdx? (fun m => m == toLowerStr [c1, c2, c3]) with
    | some i => some (i + 1, rest)
    | none => none
  | _ => none

/-- A whitespace item in the format: skip a run of whitespace. -/
def skipWs (s : Str) : Str := s.dropWhile Char.isWhitespace

/-- Match one literal character. -/
def expectChar (c : Char) : Str → Option Str
  | x :: rest => if x = c then some rest else none
  | [] => none

/-- Match a literal string. -/
def expectStr : Str → Str → Option Str
  | [], s => some s
  | p :: ps, c :: cs => if c = p then expectStr ps cs else none
  | _ :: _, [] => none

def isLeap (y : Nat) : Bool := y % 4 == 0 && (y % 100 != 0 || y % 400 == 0)

def daysInMonth (y m : Nat) : Nat :=
  if m == 2 then (if isLeap y then 29 else 28)
  else if m == 4 || m == 6 || m == 9 || m == 11 then 30
  else 31

/-- Calendar validation of the parsed fields (chrono rejects invalid dates). -/
def mkDT (y mo d h mi s : Nat) : Option NaiveDT :=
  if 1 ≤ mo ∧ mo ≤ 12 ∧ 1 ≤ d ∧ d ≤ daysInMonth y mo ∧ h ≤ 23 ∧ mi ≤ 59 ∧ s ≤ 59 then
    some ⟨y, mo, d, h, mi, s⟩
  else none

/-- Model of `NaiveDateTime::parse_from_str(value, "%b %d %H:%M:%S %Y GMT")`. -/
def parseFmt1 (v : Str) : Option NaiveDT := do
  let (mo, r) ← readMonthAbbrev v
  let r := skipWs r
  let (d, r) ← readNatMax 2 r
  let r := skipWs r
  let (h, r) ← readNatMax 2 r
  let r ← expectChar ':' r
  let (mi, r) ← readNatMax 2 r
  let r ← expectChar ':' r
  let (s, r) ← readNatMax 2 r
  let r := skipWs r
  let (y, r) ← readNatMax 4 r
  let r := skipWs r
  let r ← expectStr "GMT".data r
  if r = [] then mkDT y mo d h mi s else none

/-- Model of `NaiveDateTime::parse_from_str(value, "%Y-%m-%d %H:%M:%S GMT")`. -/
def parseFmt2 (v : Str) : Option NaiveDT := do
  let (y, r) ← readNatMax 4 v
  let r ← expectChar '-' r
  let (mo, r) ← readNatMax 2 r
  let r ← expectChar '-' r
  let (d, r) ← readNatMax 2 r
  let r := skipWs r
  let (h, r) ← readNatMax 2 r
  let r ← expectChar ':' r
  let (mi, r) ← readNatMax 2 r
  let r ← expectChar ':' r
  let (s, r) ← readNatMax 2 r
  let r := skipWs r
  let r ← expectStr "GMT".data r
  if r = [] then mkDT y mo d h mi s else none

/-- Model of `parse_date`: try the first format, fall back to the second,
else fail with a message naming the raw value. -/
def parse_date (value : Str) : Except Str NaiveDT :=
  match parseFmt1 value with
  | some d => .ok d
  | none =>
    match parseFmt2 value with
    | some d => .ok d
    | none => .error ("can not parse date <".data ++ value ++ ">".data)

/-- Model of `parse_subject`. -/
def parse_subject (attributes : List (Str × Str)) : Except Str Str :=
  match lookupA attributes "subject".data with
  | some v => .ok v
  | none => .error ("missing Subject attribute in ".data ++ debugA attributes)

/-- Model of `parse_issuer`. -/
def parse_issuer (attributes : List (Str × Str)) : Except Str Str :=
  match lookupA attributes "issuer".data with
  | some v => .ok v
  | none => .error ("missing issuer attribute in ".data ++ debugA attributes)

/-- Model of `parse_start_date`. -/
def parse_start_date (attributes : List (Str × Str)) : Except Str NaiveDT :=
  match lookupA attributes "start date".data with
  | none => .error ("missing start date attribute in ".data ++ debugA attributes)
  | some value => parse_date value

/-- Model of `parse_expire_date`; its missing-key message does not embed
the map. -/
def parse_expire_date (attributes : List (Str × Str)) : Except Str NaiveDT :=
  match lookupA attributes "expire date".data with
  | none => .error "missing expire date attribute".data
  | some value => parse_date value

/-- Model of `parse_serial_number`. -/
def parse_serial_number (attributes : List (Str × Str)) : Except Str Str :=
  match lookupA attributes "serial number".data with
  | some v => .ok v
  | none => .error ("Missing serial number attribute in ".data ++ debugA attributes)

/-- The output record. -/
structure Certificate where
  subject : Str
  issuer : Str
  start_date : NaiveDT
  expire_date : NaiveDT
  serial_number : Str
deriving DecidableEq

/-- Model of `Certificate::try_from(CertInfo)`: the `CertInfo` payload is its
`data` line list; each `?` short-circuits on the first error. -/
def Certificate.tryFrom (data : List Str) : Except Str Certificate :=
  let attributes := parse_attributes data
  match parse_subject attributes with
  | .error e => .error e
  | .ok subject =>
    match parse_issuer attributes with
    | .error e => .error e
    | .ok issuer =>
      match parse_start_date attributes with
      | .error e => .error e
      | .ok start_date =>
        match parse_expire_date attributes with
        | .error e => .error e
        | .ok expire_date =>
          match parse_serial_number attributes with
          | .error e => .error e
          | .ok serial_number =>
            .ok { subject, issuer, start_date, expire_date, serial_number }

/-- `parse_subject` with the map's `Debug` rendering abstracted: Rust's
`HashMap` iterates in a per-instance, `RandomState`-dependent order, so the
dump a given `try_from` invocation embeds in an error is some
instance-dependent rendering `dump` of the map; `debugA` (insertion order)
is one admissible instance. -/
def parse_subjectD (dump : List (Str × Str) → Str)
    (attributes : List (Str × Str)) : Except Str Str :=
  match lookupA attributes "subject".data with
  | some v => .ok v
  | none => .error ("missing Subject attribute in ".data ++ dump attributes)

/-- `parse_issuer` with the map's `Debug` rendering abstracted. -/
def parse_issuerD (dump : List (Str × Str) → Str)
    (attributes : List (Str × Str)) : Except Str Str :=
  match lookupA attributes "issuer".data with
  | some v => .ok v
  | none => .error ("missing issuer attribute in ".data ++ dump attributes)

/-- `parse_start_date` with the map's `Debug` rendering abstracted. -/
def parse_start_dateD (dump : List (Str × Str) → Str)
    (attributes : List (Str × Str)) : Except Str NaiveDT :=
  match lookupA attributes "start date".data with
  | none => .error ("missing start date attribute in ".data ++ dump attributes)
  | some value => parse_date value

/-- `parse_serial_number` with the map's `Debug` rendering abstracted. -/
def parse_serial_numberD (dump : List (Str × Str) → Str)
    (attributes : List (Str × Str)) : Except Str Str :=
  match lookupA attributes "serial number".data with
  | some v => .ok v
  | none => .error ("Missing serial number attribute in ".data ++ dump attributes)

/-- `Certificate::try_from` with the map's `Debug` rendering abstracted:
one invocation of the Rust function behaves as `tryFromD dump` for the
entry order `dump` its freshly seeded `HashMap` happens to iterate in
(`parse_expire_date` embeds no dump and needs no parameter).
`tryFromD debugA` is definitionally `Certificate.tryFrom`. -/
def Certificate.tryFromD (dump : List (Str × Str) → Str)
    (data : List Str) : Except Str Certificate :=
  let attributes := parse_attributes data
  match parse_subjectD dump attributes with
  | .error e => .error e
  | .ok subject =>
    match parse_issuerD dump attributes with
    | .error e => .error e
    | .ok issuer =>
      match parse_start_dateD dump attributes with
      | .error e => .error e
      | .ok start_date =>
        match parse_expire_date attributes with
        | .error e => .error e
        | .ok expire_date =>
          match parse_serial_numberD dump attributes with
          | .error e => .error e
          | .ok serial_number =>
            .ok { subject, issuer, start_date, expire_date, serial_number }

/-- The value a single line contributes under key `k`: its parsed value when
its lowercased name is `k`, nothing otherwise. -/
def lineValueFor (k : Str) (s : Str) : Option Str :=
  match parse_attribute s with
  | some (n, v) => if toLowerStr n = k then some v else none
  | none => none

/-- Modelled from the spec's wording of the tokenizer contract: the value of
the last line (scanning from the end) whose lowercased name is `k`. -/
def lastParsed (data : List Str) (k : Str) : Option Str :=
  data.reverse.findSome? (lineValueFor k)

def orO (a b : Option Str) : Option Str :=
  match a with
  | some v => some v
  | none => b

theorem lookupA_insertA (k v : Str) (m : List (Str × Str)) (q : Str) :
    lookupA (insertA k v m) q = if k = q then some v else lookupA m q := by
  induction m with
  | nil => simp [insertA, lookupA]
  | cons kv rest ih =>
    obtain ⟨k', v'⟩ := kv
    by_cases h : k' = k
    · subst h
      by_cases hq : k' = q <;> simp [insertA, lookupA, hq]
    · by_cases hq : k' = q
      · subst hq
        have hkq : ¬ k = k' := fun he => h he.symm
        simp [insertA, lookupA, h, hkq]
      · simp [insertA, lookupA, h, hq, ih]

theorem findSome?_append_or (f : Str → Option Str) (l1 l2 : List Str) :
    (l1 ++ l2).findSome? f = orO (l1.findSome? f) (l2.findSome? f) := by
  induction l1 with
  | nil => simp [orO, List.findSome?]
  | cons a l1 ih =>
    simp only [List.cons_append, List.findSome?]
    cases f a with
    | some b => simp [orO]
    | none => simpa [orO] using ih

theorem findSome?_none_of_all_none (f : Str → Option Str) (l : List Str)
    (h : ∀ s ∈ l, f s = none) : l.findSome? f = none := by
  induction l with
  | nil => rfl
  | cons a l ih =>
    have ha : f a = none := h a (List.mem_cons_self a l)
    simp only [List.findSome?, ha]
    exact ih fun s hs => h s (List.mem_cons_of_mem a hs)

theorem lookupA_foldl (data : List Str) (k : Str) :
    ∀ m : List (Str × Str),
      lookupA
        (data.foldl
          (fun m s =>
            match parse_attribute s with
            | some (n, v) => insertA (toLowerStr n) v m
            | none => m)
          m) k =
      orO (lastParsed data k) (lookupA m k) := by
  induction data with
  | nil => intro m; simp [lastParsed, List.findSome?, orO]
  | cons s data ih =>
    intro m
    simp only [List.foldl_cons]
    rw [ih]
    have hstep :
        lookupA
          (match parse_attribute s with
           | some (n, v) => insertA (toLowerStr n) v m
           | none => m) k =
        orO (lineValueFor k s) (lookupA m k) := by
      cases hp : parse_attribute s with
      | none => simp [lineValueFor, hp, orO]
      | some nv =>
        obtain ⟨n, v⟩ := nv
        simp only [lineValueFor, hp]
        rw [lookupA_insertA]
        by_cases hk : toLowerStr n = k
        · simp [hk, orO]
        · simp [hk, orO]
    rw [hstep]
    have hlp : lastParsed (s :: data) k =
        orO (lastParsed data k) (lineValueFor k s) := by
      simp only [lastParsed, List.reverse_cons]
      rw [findSome?_append_or]
      simp [List.findSome?]
      cases lineValueFor k s <;> simp [orO]
    rw [hlp]
    cases lastParsed data k <;> simp [orO]

theorem lookupA_parse_attributes (data : List Str) (k : Str) :
    lookupA (parse_attributes data) k = lastParsed data k := by
  rw [parse_attributes, lookupA_foldl]
  cases lastParsed data k <;> simp [orO, lookupA]

theorem parse_attribute_no_colon (s : Str) (h : ':' ∉ s) : parse_attribute s = none := by
  induction s with
  | nil => rfl
  | cons c rest ih =>
    simp only [List.mem_cons, not_or] at h
    obtain ⟨h1, h2⟩ := h
    have hc : ¬ c = ':' := fun he => h1 he.symm
    simp [parse_attribute, hc, ih h2]

theorem parse_attribute_first_colon (s : Str) :
    ∀ i : Nat, s[i]? = some ':' → (∀ j, j < i → s[j]? ≠ some ':') →
      parse_attribute s = some (s.take i, s.drop (i + 1)) := by
  induction s with
  | nil => intro i hi _; simp at hi
  | cons c rest ih =>
    intro i hi hmin
    match i with
    | 0 =>
      simp only [List.getElem?_cons_zero, Option.some.injEq] at hi
      subst hi
      simp [parse_attribute]
    | i + 1 =>
      have hc : ¬ c = ':' := by
        have h0 := hmin 0 (Nat.succ_pos i)
        simpa using h0
      have hresti : rest[i]? = some ':' := by simpa using hi
      have hrestmin : ∀ j, j < i → rest[j]? ≠ some ':' := by
        intro j hj
        have := hmin (j + 1) (Nat.succ_lt_succ hj)
        simpa using this
      have hrest := ih i hresti hrestmin
      simp [parse_attribute, hc, hrest]

theorem foldl_id_of_no_attr (data : List Str)
    (h : ∀ s ∈ data, parse_attribute s = none) :
    ∀ m : List (Str × Str),
      data.foldl
        (fun m s =>
          match parse_attribute s with
          | some (n, v) => insertA (toLowerStr n) v m
          | none => m)
        m = m := by
  induction data with
  | nil => intro m; rfl
  | cons s data ih =>
    intro m
    have hs : parse_attribute s = none := h s (List.mem_cons_self s data)
    simp only [List.foldl_cons, hs]
    exact ih (fun t ht => h t (List.mem_cons_of_mem s ht)) m

theorem parse_subject_of_lookup (m : List (Str × Str)) (v : Str)
    (h : lookupA m "subject".data = some v) : parse_subject m = .ok v := by
  simp [parse_subject, h]

theorem parse_issuer_of_lookup (m : List (Str × Str)) (v : Str)
    (h : lookupA m "issuer".data = some v) : parse_issuer m = .ok v := by
  simp [parse_issuer, h]

theorem prefix_ne_of_getElem (p1 p2 d1 d2 : Str) (i : Nat)
    (h1 : i < p1.length) (h2 : i < p2.length) (hne : p1[i]? ≠ p2[i]?) :
    p1 ++ d1 ≠ p2 ++ d2 := by
  intro he
  apply hne
  have e1 : (p1 ++ d1)[i]? = p1[i]? := by
    rw [List.getElem?_append, if_pos h1]
  have e2 : (p2 ++ d2)[i]? = p2[i]? := by
    rw [List.getElem?_append, if_pos h2]
  rw [← e1, ← e2, he]

/-- C1: on the five-line input of the spec scenario, `Certificate::try_from`
succeeds with subject and issuer `CN=localhost`, serial number `1ee8b1...`,
start date 2023-01-10T08:29:52Z and expire date 2025-10-30T08:29:52Z. -/
theorem tryFrom_full_scenario :
    Certificate.tryFrom
      ["Subject:CN=localhost".data, "Issuer:CN=localhost".data,
       "Serial Number:1ee8b1...".data,
       "Start date:Jan 10 08:29:52 2023 GMT".data,
       "Expire date:Oct 30 08:29:52 2025 GMT".data] =
    .ok { subject := "CN=localhost".data, issuer := "CN=localhost".data,
          start_date := ⟨2023, 1, 10, 8, 29, 52⟩,
          expire_date := ⟨2025, 10, 30, 8, 29, 52⟩,
          serial_number := "1ee8b1...".data } := by
  rfl

/-- C2: `parse_attribute` drops a line with no colon, and on a line whose
first colon sits at index `i` it yields the prefix before `i` as the name
and everything after the colon, verbatim, as the value. -/
theorem parse_attribute_splits_at_first_colon (s : Str) :
    (':' ∉ s → parse_attribute s = none) ∧
    (∀ i : Nat, s[i]? = some ':' → (∀ j, j < i → s[j]? ≠ some ':') →
      parse_attribute s = some (s.take i, s.drop (i + 1))) :=
  ⟨parse_attribute_no_colon s, parse_attribute_first_colon s⟩

theorem parse_attribute_splits_at_first_colon_witness :
    parse_attribute "ab:c: d".data = some ("ab".data, "c: d".data) ∧
    parse_attribute "no colon".data = none :=
  ⟨(parse_attribute_splits_at_first_colon "ab:c: d".data).2 2 (by decide)
      (by decide),
   (parse_attribute_splits_at_first_colon "no colon".data).1 (by decide)⟩

/-- C3: the map built by `parse_attributes` is keyed by lowercased attribute
names, and its lookup returns the value of the last line whose lowercased
name matches; in particular, of two lines with names equal up to case, the
later one's value is the one in the map. -/
theorem parse_attributes_lowercase_last_wins :
    (∀ (data : List Str) (k : Str),
      lookupA (parse_attributes data) k = lastParsed data k) ∧
    (∀ (pre mid post : List Str) (s1 s2 n1 v1 n2 v2 : Str),
      parse_attribute s1 = some (n1, v1) →
      parse_attribute s2 = some (n2, v2) →
      toLowerStr n1 = toLowerStr n2 →
      (∀ t ∈ post, lineValueFor (toLowerStr n2) t = none) →
      lookupA (parse_attributes (pre ++ s1 :: mid ++ s2 :: post))
        (toLowerStr n2) = some v2) := by
  constructor
  · exact lookupA_parse_attributes
  · intro pre mid post s1 s2 n1 v1 n2 v2 h1 h2 hlc hpost
    rw [lookupA_parse_attributes]
    have hshape : (pre ++ s1 :: mid ++ s2 :: post).reverse
        = post.reverse ++ s2 :: (mid.reverse ++ s1 :: pre.reverse) := by
      simp
    have hnone : post.reverse.findSome? (lineValueFor (toLowerStr n2)) = none :=
      findSome?_none_of_all_none _ _
        (fun s hs => hpost s (List.mem_reverse.mp hs))
    simp only [lastParsed]
    rw [hshape, findSome?_append_or, hnone]
    simp [orO, List.findSome?, lineValueFor, h2]

theorem parse_attributes_lowercase_last_wins_witness :
    lookupA (parse_attributes ["Start date:A".data, "START DATE:B".data])
      "start date".data = some "B".data :=
  parse_attributes_lowercase_last_wins.2 [] [] [] "Start date:A".data
    "START DATE:B".data "Start date".data "A".data "START DATE".data "B".data
    rfl rfl rfl (by simp)

/-- C4: `parse_date` tries the month-name format first (a hit there wins),
falls back to the dashed format, and the two spec strings
`"Jan 10 08:29:52 2023 GMT"` and `"2023-01-10 08:29:52 GMT"` both parse to
the UTC instant 2023-01-10T08:29:52Z. -/
theorem parse_date_two_formats_same_instant :
    (∀ (v : Str) (d : NaiveDT), parseFmt1 v = some d →
      parse_date v = .ok d) ∧
    (∀ (v : Str) (d : NaiveDT), parseFmt1 v = none → parseFmt2 v = some d →
      parse_date v = .ok d) ∧
    parse_date "Jan 10 08:29:52 2023 GMT".data = .ok ⟨2023, 1, 10, 8, 29, 52⟩ ∧
    parse_date "2023-01-10 08:29:52 GMT".data = .ok ⟨2023, 1, 10, 8, 29, 52⟩ := by
  refine ⟨?_, ?_, rfl, rfl⟩
  · intro v d h
    simp [parse_date, h]
  · intro v d h1 h2
    simp [parse_date, h1, h2]

theorem parse_date_two_formats_same_instant_witness :
    parse_date "Jan 10 08:29:52 2023 GMT".data = .ok ⟨2023, 1, 10, 8, 29, 52⟩ :=
  parse_date_two_formats_same_instant.1 "Jan 10 08:29:52 2023 GMT".data
    ⟨2023, 1, 10, 8, 29, 52⟩ rfl

/-- C5: when neither date format matches, `parse_date` fails with a message
that contains the offending raw value, and never succeeds. -/
theorem parse_date_error_names_input (v : Str)
    (h1 : parseFmt1 v = none) (h2 : parseFmt2 v = none) :
    parse_date v = .error ("can not parse date <".data ++ v ++ ">".data) ∧
    (∃ a b : Str,
      "can not parse date <".data ++ v ++ ">".data = a ++ v ++ b) ∧
    (∀ d : NaiveDT, parse_date v ≠ .ok d) := by
  have he : parse_date v = .error ("can not parse date <".data ++ v ++ ">".data) := by
    simp [parse_date, h1, h2]
  refine ⟨he, ⟨"can not parse date <".data, ">".data, rfl⟩, ?_⟩
  intro d hd
  rw [he] at hd
  exact Except.noConfusion hd

theorem parse_date_error_names_input_witness :
    parse_date "10/01/2023".data =
      .error ("can not parse date <".data ++ "10/01/2023".data ++ ">".data) :=
  (parse_date_error_names_input "10/01/2023".data rfl rfl).1

/-- C6: `Certificate::try_from` fails fast in field order: when subject,
issuer and a parseable start date are present but the expire-date key is
absent, the result is exactly the expire-date-missing error, with no
assumption on the serial-number field; and the result is always either a
complete record or an error. -/
theorem tryFrom_fail_fast_expire_missing :
    (∀ (data : List Str) (a b c : Str) (d : NaiveDT),
      lookupA (parse_attributes data) "subject".data = some a →
      lookupA (parse_attributes data) "issuer".data = some b →
      lookupA (parse_attributes data) "start date".data = some c →
      parse_date c = Except.ok d →
      lookupA (parse_attributes data) "expire date".data = none →
      Certificate.tryFrom data = .error "missing expire date attribute".data) ∧
    (∀ data : List Str,
      (∃ cert, Certificate.tryFrom data = .ok cert) ∨
      (∃ e, Certificate.tryFrom data = .error e)) := by
  constructor
  · intro data a b c d h1 h2 h3 h4 h5
    simp only [Certificate.tryFrom, parse_subject, parse_issuer,
      parse_start_date, parse_expire_date, h1, h2, h3, h4, h5]
  · intro data
    cases h : Certificate.tryFrom data with
    | ok cert => exact Or.inl ⟨cert, rfl⟩
    | error e => exact Or.inr ⟨e, rfl⟩

theorem tryFrom_fail_fast_expire_missing_witness :
    Certificate.tryFrom
      ["Subject:a".data, "Issuer:b".data,
       "Start date:Jan 10 08:29:52 2023 GMT".data,
       "Serial Number:s".data] =
    .error "missing expire date attribute".data :=
  tryFrom_fail_fast_expire_missing.1
    ["Subject:a".data, "Issuer:b".data,
     "Start date:Jan 10 08:29:52 2023 GMT".data, "Serial Number:s".data]
    "a".data "b".data "Jan 10 08:29:52 2023 GMT".data
    ⟨2023, 1, 10, 8, 29, 52⟩ rfl rfl rfl rfl rfl

/-- C7: when no line contains a colon, the attribute map is empty, all five
extractors fail with their missing-attribute errors, and
`Certificate::try_from` fails naming the missing Subject attribute (so in
particular on the empty input). -/
theorem no_colon_lines_empty_map_errors (data : List Str)
    (h : ∀ s ∈ data, ':' ∉ s) :
    parse_attributes data = [] ∧
    parse_subject (parse_attributes data) =
      .error ("missing Subject attribute in ".data ++ debugA []) ∧
    parse_issuer (parse_attributes data) =
      .error ("missing issuer attribute in ".data ++ debugA []) ∧
    parse_start_date (parse_attributes data) =
      .error ("missing start date attribute in ".data ++ debugA []) ∧
    parse_expire_date (parse_attributes data) =
      .error "missing expire date attribute".data ∧
    parse_serial_number (parse_attributes data) =
      .error ("Missing serial number attribute in ".data ++ debugA []) ∧
    Certificate.tryFrom data =
      .error ("missing Subject attribute in ".data ++ debugA []) := by
  have hempty : parse_attributes data = [] := by
    rw [parse_attributes]
    exact foldl_id_of_no_attr data
      (fun s hs => parse_attribute_no_colon s (h s hs)) []
  refine ⟨hempty, ?_, ?_, ?_, ?_, ?_, ?_⟩
  · rw [hempty]; rfl
  · rw [hempty]; rfl
  · rw [hempty]; rfl
  · rw [hempty]; rfl
  · rw [hempty]; rfl
  · simp only [Certificate.tryFrom, hempty]
    rfl

theorem no_colon_lines_empty_map_errors_witness :
    Certificate.tryFrom [] =
      .error ("missing Subject attribute in ".data ++ debugA []) :=
  (no_colon_lines_empty_map_errors [] (by simp)).2.2.2.2.2.2

/-- C8: each extractor's missing-key error identifies its attribute; the
subject, issuer and serial-number (and start-date) messages embed the debug
rendering of the full map, the expire-date message does not, and the five
messages are pairwise distinct for every map. -/
theorem missing_attribute_messages_distinct (m : List (Str × Str)) :
    (lookupA m "subject".data = none →
      parse_subject m = .error ("missing Subject attribute in ".data ++ debugA m)) ∧
    (lookupA m "issuer".data = none →
      parse_issuer m = .error ("missing issuer attribute in ".data ++ debugA m)) ∧
    (lookupA m "start date".data = none →
      parse_start_date m = .error ("missing start date attribute in ".data ++ debugA m)) ∧
    (lookupA m "serial number".data = none →
      parse_serial_number m = .error ("Missing serial number attribute in ".data ++ debugA m)) ∧
    (lookupA m "expire date".data = none →
      parse_expire_date m = .error "missing expire date attribute".data) ∧
    "missing Subject attribute in ".data ++ debugA m ≠
      "missing issuer attribute in ".data ++ debugA m ∧
    "missing Subject attribute in ".data ++ debugA m ≠
      "missing start date attribute in ".data ++ debugA m ∧
    "missing Subject attribute in ".data ++ debugA m ≠
      "Missing serial number attribute in ".data ++ debugA m ∧
    "missing Subject attribute in ".data ++ debugA m ≠
      "missing expire date attribute".data ∧
    "missing issuer attribute in ".data ++ debugA m ≠
      "missing start date attribute in ".data ++ debugA m ∧
    "missing issuer attribute in ".data ++ debugA m ≠
      "Missing serial number attribute in ".data ++ debugA m ∧
    "missing issuer attribute in ".data ++ debugA m ≠
      "missing expire date attribute".data ∧
    "missing start date attribute in ".data ++ debugA m ≠
      "Missing serial number attribute in ".data ++ debugA m ∧
    "missing start date attribute in ".data ++ debugA m ≠
      "missing expire date attribute".data ∧
    "Missing serial number attribute in ".data ++ debugA m ≠
      "missing expire date attribute".data := by
  refine ⟨?_, ?_, ?_, ?_, ?_, ?_, ?_, ?_, ?_, ?_, ?_, ?_, ?_, ?_, ?_⟩
  · intro h; simp [parse_subject, h]
  · intro h; simp [parse_issuer, h]
  · intro h; simp [parse_start_date, h]
  · intro h; simp [parse_serial_number, h]
  · intro h; simp [parse_expire_date, h]
  · exact prefix_ne_of_getElem _ _ _ _ 8 (by decide) (by decide) (by decide)
  · exact prefix_ne_of_getElem _ _ _ _ 8 (by decide) (by decide) (by decide)
  · exact prefix_ne_of_getElem _ _ _ _ 0 (by decide) (by decide) (by decide)
  · intro he
    exact prefix_ne_of_getElem "missing Subject attribute in ".data
      "missing expire date attribute".data (debugA m) [] 8
      (by decide) (by decide) (by decide)
      (he.trans (List.append_nil "missing expire date attribute".data).symm)
  · exact prefix_ne_of_getElem _ _ _ _ 8 (by decide) (by decide) (by decide)
  · exact prefix_ne_of_getElem _ _ _ _ 0 (by decide) (by decide) (by decide)
  · intro he
    exact prefix_ne_of_getElem "missing issuer attribute in ".data
      "missing expire date attribute".data (debugA m) [] 8
      (by decide) (by decide) (by decide)
      (he.trans (List.append_nil "missing expire date attribute".data).symm)
  · exact prefix_ne_of_getElem _ _ _ _ 0 (by decide) (by decide) (by decide)
  · intro he
    exact prefix_ne_of_getElem "missing start date attribute in ".data
      "missing expire date attribute".data (debugA m) [] 8
      (by decide) (by decide) (by decide)
      (he.trans (List.append_nil "missing expire date attribute".data).symm)
  · intro he
    exact prefix_ne_of_getElem "Missing serial number attribute in ".data
      "missing expire date attribute".data (debugA m) [] 0
      (by decide) (by decide) (by decide)
      (he.trans (List.append_nil "missing expire date attribute".data).symm)

theorem missing_attribute_messages_distinct_witness :
    parse_subject [] =
      .error ("missing Subject attribute in ".data ++ debugA []) :=
  (missing_attribute_messages_distinct []).1 rfl

theorem tryFromD_ok_iff (dump1 dump2 : List (Str × Str) → Str)
    (data : List Str) (c : Certificate) :
    Certificate.tryFromD dump1 data = .ok c ↔
    Certificate.tryFromD dump2 data = .ok c := by
  simp only [Certificate.tryFromD, parse_subjectD, parse_issuerD,
    parse_start_dateD, parse_expire_date, parse_serial_numberD]
  cases lookupA (parse_attributes data) "subject".data <;> simp
  cases lookupA (parse_attributes data) "issuer".data <;> simp
  cases lookupA (parse_attributes data) "start date".data <;> simp
  case some v =>
    cases parse_date v <;> simp
    cases lookupA (parse_attributes data) "expire date".data <;> simp
    case some v2 =>
      cases parse_date v2 <;> simp
      cases lookupA (parse_attributes data) "serial number".data <;> simp

theorem tryFromD_error_iff (dump1 dump2 : List (Str × Str) → Str)
    (data : List Str) :
    (∃ e, Certificate.tryFromD dump1 data = .error e) ↔
    (∃ e, Certificate.tryFromD dump2 data = .error e) := by
  constructor
  · rintro ⟨e, he⟩
    cases h2 : Certificate.tryFromD dump2 data with
    | error e2 => exact ⟨e2, rfl⟩
    | ok c =>
      have h1 := (tryFromD_ok_iff dump2 dump1 data c).mp h2
      rw [he] at h1
      exact Except.noConfusion h1
  · rintro ⟨e, he⟩
    cases h2 : Certificate.tryFromD dump1 data with
    | error e2 => exact ⟨e2, rfl⟩
    | ok c =>
      have h1 := (tryFromD_ok_iff dump1 dump2 data c).mp h2
      rw [he] at h1
      exact Except.noConfusion h1

/-- C9 counterexample: on the input `["Issuer:a", "Serial Number:b"]` two
invocations of `try_from` whose maps iterate in different (but equally
admissible — the reversed entry list is a permutation) orders produce
different error strings, so equal inputs need not yield the same error. -/
theorem parsing_deterministic_counterexample :
    Certificate.tryFromD debugA ["Issuer:a".data, "Serial Number:b".data] =
      .error "missing Subject attribute in \x7b\"issuer\": \"a\", \"serial number\": \"b\"\x7d".data ∧
    Certificate.tryFromD (fun m => debugA m.reverse)
        ["Issuer:a".data, "Serial Number:b".data] =
      .error "missing Subject attribute in \x7b\"serial number\": \"b\", \"issuer\": \"a\"\x7d".data ∧
    Certificate.tryFromD debugA ["Issuer:a".data, "Serial Number:b".data] ≠
      Certificate.tryFromD (fun m => debugA m.reverse)
        ["Issuer:a".data, "Serial Number:b".data] ∧
    List.Perm
      (parse_attributes ["Issuer:a".data, "Serial Number:b".data]).reverse
      (parse_attributes ["Issuer:a".data, "Serial Number:b".data]) := by
  refine ⟨rfl, rfl, ?_, by decide⟩
  intro h
  have h1 :
      (Except.error "missing Subject attribute in \x7b\"issuer\": \"a\", \"serial number\": \"b\"\x7d".data :
          Except Str Certificate) =
        Except.error "missing Subject attribute in \x7b\"serial number\": \"b\", \"issuer\": \"a\"\x7d".data :=
    ((rfl :
        Certificate.tryFromD debugA ["Issuer:a".data, "Serial Number:b".data] =
          Except.error "missing Subject attribute in \x7b\"issuer\": \"a\", \"serial number\": \"b\"\x7d".data).symm.trans
      h).trans
      (rfl :
        Certificate.tryFromD (fun m => debugA m.reverse)
            ["Issuer:a".data, "Serial Number:b".data] =
          Except.error "missing Subject attribute in \x7b\"serial number\": \"b\", \"issuer\": \"a\"\x7d".data)
  exact absurd (Except.error.inj h1) (by decide)

/-- C9 (amended): parsing is deterministic up to the map-dump entry order —
on equal inputs, any two invocations (any two admissible dump orders) build
identical attribute maps, yield the same success record, and agree on
success versus failure; `Certificate.tryFrom` is the invocation whose dump
renders in insertion order. -/
theorem parsing_deterministic_up_to_dump_order :
    (∀ (dump1 dump2 : List (Str × Str) → Str) (d1 d2 : List Str), d1 = d2 →
      parse_attributes d1 = parse_attributes d2 ∧
      (∀ c : Certificate,
        Certificate.tryFromD dump1 d1 = .ok c ↔
        Certificate.tryFromD dump2 d2 = .ok c) ∧
      ((∃ e, Certificate.tryFromD dump1 d1 = .error e) ↔
        (∃ e, Certificate.tryFromD dump2 d2 = .error e))) ∧
    Certificate.tryFrom = Certificate.tryFromD debugA := by
  constructor
  · intro dump1 dump2 d1 d2 h
    subst h
    exact ⟨rfl, fun c => tryFromD_ok_iff dump1 dump2 d1 c,
      tryFromD_error_iff dump1 dump2 d1⟩
  · funext data
    rfl

theorem parsing_deterministic_up_to_dump_order_witness :
    Certificate.tryFromD debugA ["Issuer:a".data, "Serial Number:b".data] =
        .ok { subject := "x".data, issuer := "x".data,
              start_date := ⟨2023, 1, 10, 8, 29, 52⟩,
              expire_date := ⟨2023, 1, 10, 8, 29, 52⟩,
              serial_number := "x".data } ↔
      Certificate.tryFromD (fun m => debugA m.reverse)
          ["Issuer:a".data, "Serial Number:b".data] =
        .ok { subject := "x".data, issuer := "x".data,
              start_date := ⟨2023, 1, 10, 8, 29, 52⟩,
              expire_date := ⟨2023, 1, 10, 8, 29, 52⟩,
              serial_number := "x".data } :=
  ((parsing_deterministic_up_to_dump_order.1 debugA (fun m => debugA m.reverse)
      ["Issuer:a".data, "Serial Number:b".data]
      ["Issuer:a".data, "Serial Number:b".data] rfl).2.1 _)

/-- C10: `parse_start_date` on a map lacking the `start date` key fails with
a message that embeds the debug rendering of the full map, so only the
expire-date path omits the map dump. -/
theorem parse_start_date_error_embeds_map (m : List (Str × Str))
    (h : lookupA m "start date".data = none) :
    parse_start_date m =
      .error ("missing start date attribute in ".data ++ debugA m) ∧
    (∃ a : Str, "missing start date attribute in ".data ++ debugA m =
      a ++ debugA m) := by
  refine ⟨?_, "missing start date attribute in ".data, rfl⟩
  simp [parse_start_date, h]

theorem parse_start_date_error_embeds_map_witness :
    parse_start_date [("subject".data, "x".data)] =
      .error ("missing start date attribute in ".data ++
        debugA [("subject".data, "x".data)]) :=
  (parse_start_date_error_embeds_map [("subject".data, "x".data)] rfl).1
